import Mathlib

/-!
Shallow embedding of the eeepy temporary-file cache (tempcache.py) and the
bandwidth-limited copy utilities (eeepy/fileutil.py).

Filesystem model: a finite map from path to file content, as an association
list.  The MD5 digest of a file is modelled by the file content itself: the
digest is deterministic and, in the model, injective, which is all the
validation step observes.  Wall-clock sleeping is modelled by recording the
slept durations in a list.
-/

namespace EEEPy

/-- Errors raised by the modelled code.  Python exception classes are
collapsed into constructors carrying the message data the source formats
into them. -/
inductive Err where
  | ioError (msg : String)
  | valueError (msg : String)
  | checksumError (srcSum dstSum : String)
  | sameFileError (src dst : String)
deriving DecidableEq, Repr

deriving instance DecidableEq for Except

/-- The filesystem: association list from path to content. -/
abbrev FS := List (String × String)

def FS.lookup : FS → String → Option String
  | [], _ => none
  | (q, v) :: rest, p => if q = p then some v else FS.lookup rest p

def FS.removeKey : FS → String → FS
  | [], _ => []
  | (q, v) :: rest, p => if q = p then FS.removeKey rest p else (q, v) :: FS.removeKey rest p

/-- Writing a file: truncating create/overwrite. -/
def FS.write (fs : FS) (p v : String) : FS := (p, v) :: FS.removeKey fs p

def FS.isfile (fs : FS) (p : String) : Bool := (FS.lookup fs p).isSome

/-! ### eeepy/fileutil.py: bandwidth parsing

The source matches the specification string against the regular expression
caret ([0-9]+(backslash.[0-9]+)?)([bkmgtBKMGT])? dollar, converts group 1
with float(), applies the multiplier (default kilobytes), and computes
int(value / 1024) * 1024 with a floor of 1024.  The model keeps the matched
number exactly as numerator over a power of ten; since every quantity is
non-negative, Python's int() truncation of value / 1024 is Nat division
here. -/

def isDigitChar (c : Char) : Bool := '0' ≤ c && c ≤ '9'

def digitsToNat (l : List Char) : Nat :=
  l.foldl (fun a c => a * 10 + (c.toNat - ('0').toNat)) 0

/-- Split a character list into its longest digit-run head and the rest. -/
def splitDigits : List Char → List Char × List Char
  | [] => ([], [])
  | c :: cs =>
    if isDigitChar c then
      let p := splitDigits cs
      (c :: p.1, p.2)
    else ([], c :: cs)

def isMultChar (c : Char) : Bool :=
  c = 'b' || c = 'k' || c = 'm' || c = 'g' || c = 't' ||
  c = 'B' || c = 'K' || c = 'M' || c = 'G' || c = 'T'

/-- The multiplier table of _parse_bandwidth (keyed on the upper-cased
suffix character in the source). -/
def multOf (c : Char) : Nat :=
  if c = 'b' || c = 'B' then 1
  else if c = 'k' || c = 'K' then 1024
  else if c = 'm' || c = 'M' then 1024 ^ 2
  else if c = 'g' || c = 'G' then 1024 ^ 3
  else if c = 't' || c = 'T' then 1024 ^ 4
  else 0

/-- Match of the bandwidth regular expression: returns the integer digits,
the fractional digits (empty when the optional group is absent) and the
optional multiplier character.  The digit runs are matched greedily, which
coincides with the regular expression because no backtracked shorter digit
run can let the remainder (which would then start with a digit) match the
tail of the pattern. -/
def bwMatch (cs : List Char) : Option (List Char × List Char × Option Char) :=
  let p1 := splitDigits cs
  if p1.1.isEmpty then none
  else
    let step2 : Option (List Char × List Char) :=
      match p1.2 with
      | '.' :: rest =>
        let p2 := splitDigits rest
        if p2.1.isEmpty then none else some (p2.1, p2.2)
      | other => some ([], other)
    match step2 with
    | none => none
    | some (frac, rest2) =>
      match rest2 with
      | [] => some (p1.1, frac, none)
      | [c] => if isMultChar c then some (p1.1, frac, some c) else none
      | _ => none

/-- Model of fileutil._parse_bandwidth.  The matched number is the exact
rational digitsToNat (intDigits ++ fracDigits) / 10 ^ fracDigits.length;
the source computes with floats, the model computes exactly. -/
def parse_bandwidth (bw_spec : String) : Except Err Nat :=
  match bwMatch bw_spec.data with
  | none => .error (.valueError ("Unrecognized size specification: " ++ bw_spec))
  | some (intDigits, fracDigits, multChar) =>
    let num := digitsToNat (intDigits ++ fracDigits)
    let den := 10 ^ fracDigits.length
    let mult : Nat := match multChar with
      | some c => multOf c
      | none => 1024
    let bw := num * mult / (den * 1024) * 1024
    .ok (if bw = 0 then 1024 else bw)

/-! ### eeepy/fileutil.py: copyfile -/

/-- Model of fileutil.copyfile.  _samefile falls back to path equality in
the model; the FIFO check never fires because the model holds only regular
files.  Opening the destination for writing truncates or creates it before
any data moves, so a bandwidth parse failure (raised inside copyfileobj,
before the first chunk) leaves an empty destination file behind.  A
successful copy leaves the destination holding the source content; the
bandwidth value only paces the copy in the source and has no other
observable effect. -/
def copyfile (fs : FS) (src dst : String) (bandwidth : Option String) : FS × Option Err :=
  if src = dst then (fs, some (.sameFileError src dst))
  else
    match FS.lookup fs src with
    | none => (fs, some (.ioError ("No such file or directory: " ++ src)))
    | some content =>
      let fs1 := FS.write fs dst ""
      match bandwidth with
      | none => (FS.write fs1 dst content, none)
      | some spec =>
        match parse_bandwidth spec with
        | .error e => (fs1, some e)
        | .ok _ => (FS.write fs1 dst content, none)

/-! ### tempcache.py: checksum and validation -/

/-- Model of _get_checksum: the digest of a file is its content (opening a
missing file raises). -/
def get_checksum (fs : FS) (p : String) : Except Err String :=
  match FS.lookup fs p with
  | none => .error (.ioError ("No such file or directory: " ++ p))
  | some content => .ok content

/-- Model of TempCache._validate_copy: no-op when validation is disabled,
otherwise checksum the temp file, then the destination file, and raise
ChecksumError on mismatch. -/
def validate_copy (validate : Bool) (fs : FS) (temp_file dest_file : String) : Option Err :=
  if !validate then none
  else
    match get_checksum fs temp_file with
    | .error e => some e
    | .ok a =>
      match get_checksum fs dest_file with
      | .error e => some e
      | .ok b => if a = b then none else some (.checksumError a b)

/-! ### tempcache.py: the retry loop of _copy_file

The while loop of _copy_file, parameterized over the state type and the
per-attempt copy and validate effects so that the same loop serves the
concrete filesystem model and the oracle-driven analysis of the control
flow.  Per iteration the source resets last_ex, sleeps retry_delay ^ n_try
for n_try > 0, runs the copy inside try/except (the except branch stores
the error in last_ex), then calls _validate_copy OUTSIDE the try/except:
an error raised there propagates out of the loop at once. -/

structure AttemptFns (σ : Type) where
  copyStep : Nat → σ → σ × Option Err
  validateStep : Nat → σ → Option Err

inductive LoopExit where
  | completed (lastEx : Option Err)
  | raised (e : Err)
deriving DecidableEq, Repr

structure LoopRes (σ : Type) where
  state : σ
  copies : Nat
  vals : Nat
  sleeps : List Nat
  exit : LoopExit
deriving DecidableEq, Repr

def copyLoop {σ : Type} (fns : AttemptFns σ) (retry_delay : Nat) :
    Nat → Nat → σ → Option Err → LoopRes σ
  | 0, _, s, last_ex => ⟨s, 0, 0, [], .completed last_ex⟩
  | r + 1, n_try, s, _ =>
    let slp : List Nat := if n_try > 0 then [retry_delay ^ n_try] else []
    let c := fns.copyStep n_try s
    match fns.validateStep n_try c.1 with
    | some e => ⟨c.1, 1, 1, slp, .raised e⟩
    | none =>
      let rest := copyLoop fns retry_delay r (n_try + 1) c.1 c.2
      ⟨rest.state, rest.copies + 1, rest.vals + 1, slp ++ rest.sleeps, rest.exit⟩

/-- Configuration of a TempCache instance (the fields __init__ stores). -/
structure Cfg where
  temp_dir : String
  retry : Nat
  retry_delay : Nat
  copy_on_err : Bool
  bandwidth : Option String
  validate : Bool
deriving DecidableEq, Repr

def fsAttempts (cfg : Cfg) (temp_file dest_file : String) : AttemptFns FS where
  copyStep := fun _ fs => copyfile fs temp_file dest_file cfg.bandwidth
  validateStep := fun _ fs => validate_copy cfg.validate fs temp_file dest_file

structure CopyRun where
  fs : FS
  copies : Nat
  vals : Nat
  sleeps : List Nat
  result : Except Err Unit
deriving DecidableEq, Repr

/-- Model of TempCache._copy_file.  Missing temp file raises at once with no
attempt.  After the while loop, when last_ex is set the destination file is
removed (best effort; removal always succeeds in the model) and last_ex is
rethrown.  An error raised by the unguarded validate call leaves the loop
immediately and skips that cleanup. -/
def copy_file (cfg : Cfg) (temp_file dest_file : String) (fs : FS) : CopyRun :=
  if !(FS.isfile fs temp_file) then
    ⟨fs, 0, 0, [], .error (.ioError ("Cannot copy temp file: File does not exist: " ++ temp_file))⟩
  else
    let r := copyLoop (fsAttempts cfg temp_file dest_file) cfg.retry_delay (cfg.retry + 1) 0 fs none
    match r.exit with
    | .raised e => ⟨r.state, r.copies, r.vals, r.sleeps, .error e⟩
    | .completed none => ⟨r.state, r.copies, r.vals, r.sleeps, .ok ()⟩
    | .completed (some e) =>
      let fs1 := if FS.isfile r.state dest_file then FS.removeKey r.state dest_file else r.state
      ⟨fs1, r.copies, r.vals, r.sleeps, .error e⟩

/-- Oracle-driven instance of the attempt loop: per-attempt copy and
validate outcomes are given as functions of the attempt index. -/
def abstractAttempts (copyRes validateRes : Nat → Option Err) : AttemptFns Unit where
  copyStep := fun n _ => ((), copyRes n)
  validateStep := fun n _ => validateRes n

/-- _copy_file over the outcome oracles: the same precondition check, loop
and final rethrow as the filesystem instance, with the destination cleanup
invisible because the state is trivial. -/
def copy_file_abs (retry retry_delay : Nat) (file_exists : Bool)
    (copyRes validateRes : Nat → Option Err) : LoopRes Unit × Except Err Unit :=
  if !file_exists then
    (⟨(), 0, 0, [], .completed none⟩,
     .error (.ioError "Cannot copy temp file: File does not exist"))
  else
    let r := copyLoop (abstractAttempts copyRes validateRes) retry_delay (retry + 1) 0 () none
    (r, match r.exit with
        | .raised e => .error e
        | .completed (some e) => .error e
        | .completed none => .ok ())

/-! ### tempcache.py: the retry loop of _rm_file

The while loop of _rm_file: last_ex is initialized once before the loop and
is NOT reset per iteration; the remove call runs inside try/except with a
break on success; after the loop, a non-null last_ex is raised even when a
later attempt succeeded.  os.remove raises OSError, which the except clause
(EnvironmentError) catches, so every removal error is catchable here. -/

structure RmRes (σ : Type) where
  state : σ
  attempts : Nat
  sleeps : List Nat
  last_ex : Option Err
  removed : Bool
deriving DecidableEq, Repr

def rmLoop {σ : Type} (step : Nat → σ → σ × Option Err) (retry_delay : Nat) :
    Nat → Nat → σ → Option Err → RmRes σ
  | 0, _, s, last_ex => ⟨s, 0, [], last_ex, false⟩
  | r + 1, n_try, s, last_ex =>
    let slp : List Nat := if n_try > 0 then [retry_delay ^ n_try] else []
    let st := step n_try s
    match st.2 with
    | none => ⟨st.1, 1, slp, last_ex, true⟩
    | some e =>
      let rest := rmLoop step retry_delay r (n_try + 1) st.1 (some e)
      ⟨rest.state, rest.attempts + 1, slp ++ rest.sleeps, rest.last_ex, rest.removed⟩

/-- os.remove on the model filesystem. -/
def fsRemove (fs : FS) (p : String) : FS × Option Err :=
  if FS.isfile fs p then (FS.removeKey fs p, none)
  else (fs, some (.ioError ("No such file or directory: " ++ p)))

/-- Model of TempCache._rm_file over the model filesystem. -/
def rm_file (cfg : Cfg) (file : String) (fs : FS) : FS × Except Err Unit :=
  if !(FS.isfile fs file) then
    (fs, .error (.ioError ("Cannot remove file: File does not exist: " ++ file)))
  else
    let r := rmLoop (fun _ s => fsRemove s file) cfg.retry_delay (cfg.retry + 1) 0 fs none
    (r.state, match r.last_ex with
              | some e => .error e
              | none => .ok ())

/-- _rm_file over a per-attempt outcome oracle (none = the remove call
succeeded on that attempt). -/
def rm_file_abs (retry retry_delay : Nat) (file_exists : Bool)
    (removeRes : Nat → Option Err) : RmRes Unit × Except Err Unit :=
  if !file_exists then
    (⟨(), 0, [], none, false⟩, .error (.ioError "Cannot remove file: File does not exist"))
  else
    let r := rmLoop (fun n _ => ((), removeRes n)) retry_delay (retry + 1) 0 () none
    (r, match r.last_ex with
        | some e => .error e
        | none => .ok ())

/-! ### tempcache.py: entries, do_copy, scope exit, register, __init__ -/

/-- CacheEntry: the record register stores per file. -/
structure CacheEntry where
  file_path : String
  temp_file : String
  file_name : String
  do_rm : Bool
deriving DecidableEq, Repr

/-- The iteration of do_copy over the registered entries, parameterized by
the per-entry copy and remove operations.  The entry list is the insertion
order of the registered-file dictionary (Python dictionaries iterate in
insertion order).  An error from either operation propagates at once,
aborting the remaining iteration. -/
def doCopyWith (copyOne rmOne : CacheEntry → FS → FS × Except Err Unit) :
    List CacheEntry → FS → FS × Except Err Unit
  | [], fs => (fs, .ok ())
  | e :: rest, fs =>
    let c := copyOne e fs
    match c.2 with
    | .error err => (c.1, .error err)
    | .ok _ =>
      if e.do_rm then
        let r := rmOne e c.1
        match r.2 with
        | .error err => (r.1, .error err)
        | .ok _ => doCopyWith copyOne rmOne rest r.1
      else doCopyWith copyOne rmOne rest c.1

/-- The per-entry copy operation of do_copy (its filesystem effect and
outcome). -/
def copyOneFS (cfg : Cfg) (e : CacheEntry) (fs : FS) : FS × Except Err Unit :=
  ((copy_file cfg e.temp_file e.file_path fs).fs,
   (copy_file cfg e.temp_file e.file_path fs).result)

/-- The per-entry remove operation of do_copy. -/
def rmOneFS (cfg : Cfg) (e : CacheEntry) (fs : FS) : FS × Except Err Unit :=
  rm_file cfg e.temp_file fs

/-- Model of TempCache.do_copy: _copy_file then, for entries registered with
do_rm, _rm_file, entry by entry in insertion order. -/
def do_copy (cfg : Cfg) : List CacheEntry → FS → FS × Except Err Unit :=
  doCopyWith (copyOneFS cfg) (rmOneFS cfg)

/-- Model of TempCache.__exit__.  ex_type is the in-scope exception (none on
a normal exit).  The first component records whether do_copy ran; the last
component is the outcome of __exit__ itself: ok b means it returned the
Boolean b (the source always returns False, so exceptions are never
suppressed), error e means do_copy raised e out of __exit__. -/
def TempCache.exitScope (cfg : Cfg) (entries : List CacheEntry) (fs : FS)
    (ex_type : Option Err) : Bool × FS × Except Err Bool :=
  if ex_type.isNone || cfg.copy_on_err then
    let r := do_copy cfg entries fs
    (true, r.1, match r.2 with
                | .ok _ => .ok false
                | .error e => .error e)
  else (false, fs, .ok false)

/-- Model of TempCache.__init__: the only validation is the negative-retry
check; the bandwidth value is stored without being parsed. -/
def TempCache.init (temp_dir : String) (retry : Int) (retry_delay : Nat)
    (copy_on_err : Bool) (bandwidth : Option String) (validate : Bool) : Except Err Cfg :=
  if retry < 0 then
    .error (.valueError ("Retry value must not be negative: " ++ toString retry))
  else
    .ok ⟨temp_dir, retry.toNat, retry_delay, copy_on_err, bandwidth, validate⟩

/-- The characters after the last slash: the running accumulator is reset
whenever a slash is read. -/
def lastComponent : List Char → List Char → List Char
  | [], acc => acc
  | c :: cs, acc => if c = '/' then lastComponent cs [] else lastComponent cs (acc ++ [c])

/-- os.path.basename, for the slash-separated paths of the model. -/
def baseName (p : String) : String := ⟨lastComponent p.data []⟩

/-- os.path.join for a relative second component. -/
def pathJoin (dir file : String) : String :=
  if dir = "" then file else dir ++ "/" ++ file

/-- The temp-name format string of register: base name, dot, uuid token,
dot, tmp suffix. -/
def mkTempName (base uuid : String) : String := base ++ "." ++ uuid ++ ".tmp"

/-- The collision loop of register: while the candidate exists and
file_count < 3, synthesize a new candidate.  Faithful to the source,
file_count is NOT incremented in the loop body and the retried candidate
drops the temp-directory join.  The loop need not terminate, so it takes
fuel; none means the fuel ran out with the loop still running.  The second
component of the result is the index of the next unused uuid token. -/
def registerLoop (base : String) (uuids : Nat → String) (existsOnDisk : String → Bool) :
    Nat → Nat → String → Nat → Option (String × Nat)
  | 0, _, _, _ => none
  | fuel + 1, idx, temp_file, file_count =>
    if existsOnDisk temp_file && file_count < 3 then
      registerLoop base uuids existsOnDisk fuel (idx + 1) (mkTempName base (uuids idx)) file_count
    else some (temp_file, idx)

structure RegisterOut where
  result : Except Err String
  synthRetries : Nat
deriving DecidableEq, Repr

/-- Model of TempCache.register.  uuids is the stream of uuid1 hex tokens,
existsOnDisk the os.path.exists oracle.  Absolute-path resolution is the
identity in the model and the base name is the last slash component.  On
success the returned path is also the key under which the CacheEntry is
stored.  synthRetries counts the names synthesized inside the collision
loop.  none means the collision loop exhausted the given fuel. -/
def register (temp_dir file_name : String) (uuids : Nat → String)
    (existsOnDisk : String → Bool) (fuel : Nat) : Option RegisterOut :=
  let base := baseName file_name
  let temp_file := pathJoin temp_dir (mkTempName base (uuids 0))
  if existsOnDisk temp_file then
    match registerLoop base uuids existsOnDisk fuel 1 temp_file 1 with
    | none => none
    | some (tf, idx) =>
      if existsOnDisk tf then
        some ⟨.error (.ioError ("Cannot resolve a temporary file name for " ++ file_name
                                ++ " after 3 attempts")), idx - 1⟩
      else some ⟨.ok tf, idx - 1⟩
  else some ⟨.ok temp_file, 0⟩

/-- Whether the first character list is a leading run of the second. -/
def charsBeginWith : List Char → List Char → Bool
  | [], _ => true
  | _ :: _, [] => false
  | c :: cs, d :: ds => c = d && charsBeginWith cs ds

/-- Whether a path lies inside a directory, for the slash-separated paths of
the model. -/
def insideDir (dir p : String) : Bool := charsBeginWith (dir ++ "/").data p.data

/-! ### Basic filesystem lemmas -/

theorem FS.lookup_removeKey (fs : FS) (p q : String) :
    FS.lookup (FS.removeKey fs p) q = if q = p then none else FS.lookup fs q := by
  induction fs with
  | nil => simp [FS.removeKey, FS.lookup]
  | cons hd tl ih =>
    obtain ⟨a, v⟩ := hd
    simp only [FS.removeKey, FS.lookup]
    by_cases hap : a = p
    · rw [if_pos hap, ih]
      by_cases hqp : q = p
      · rw [if_pos hqp, if_pos hqp]
      · rw [if_neg hqp, if_neg hqp, if_neg (by rw [hap]; exact fun h => hqp h.symm)]
    · rw [if_neg hap]
      simp only [FS.lookup]
      by_cases haq : a = q
      · rw [if_pos haq, if_pos haq, if_neg (fun h : q = p => hap (haq.trans h))]
      · rw [if_neg haq, ih]
        by_cases hqp : q = p
        · rw [if_pos hqp, if_pos hqp]
        · rw [if_neg hqp, if_neg hqp, if_neg haq]

theorem FS.lookup_write (fs : FS) (p v : String) (q : String) :
    FS.lookup (FS.write fs p v) q = if q = p then some v else FS.lookup fs q := by
  simp only [FS.write, FS.lookup]
  by_cases hpq : p = q
  · subst hpq; simp
  · rw [if_neg hpq, if_neg (fun h => hpq h.symm), FS.lookup_removeKey,
      if_neg (fun h => hpq h.symm)]

theorem FS.removeKey_removeKey (fs : FS) (p : String) :
    FS.removeKey (FS.removeKey fs p) p = FS.removeKey fs p := by
  induction fs with
  | nil => simp [FS.removeKey]
  | cons hd tl ih =>
    obtain ⟨a, v⟩ := hd
    by_cases hap : a = p
    · simp [FS.removeKey, if_pos hap, ih]
    · simp [FS.removeKey, if_neg hap, ih]

theorem FS.write_write (fs : FS) (p a b : String) :
    FS.write (FS.write fs p a) p b = FS.write fs p b := by
  simp [FS.write, FS.removeKey, FS.removeKey_removeKey]

/-! ### The abstract copy loop under silent validation -/

/-- When the validation step raises no error, the while loop of _copy_file
runs all its iterations: one copy and one validate call per iteration, and
the loop exit carries the last iteration's copy outcome (last_ex is reset
at the top of every iteration, so only the final attempt's outcome
survives). -/
theorem copyLoop_abs_silent (copyRes validateRes : Nat → Option Err) (d : Nat)
    (hv : ∀ n, validateRes n = none) :
    ∀ (r n_try : Nat) (le : Option Err),
      (copyLoop (abstractAttempts copyRes validateRes) d (r + 1) n_try () le).copies = r + 1 ∧
      (copyLoop (abstractAttempts copyRes validateRes) d (r + 1) n_try () le).vals = r + 1 ∧
      (copyLoop (abstractAttempts copyRes validateRes) d (r + 1) n_try () le).exit
        = .completed (copyRes (n_try + r)) := by
  intro r
  induction r with
  | zero =>
    intro n_try le
    simp [copyLoop, abstractAttempts, hv n_try]
  | succ r ih =>
    intro n_try le
    have hstep := ih (n_try + 1) (copyRes n_try)
    rw [copyLoop]
    dsimp only [abstractAttempts] at hstep ⊢
    rw [hv n_try]
    dsimp only
    refine ⟨by rw [hstep.1], by rw [hstep.2.1], ?_⟩
    rw [hstep.2.2]
    have harith : n_try + 1 + r = n_try + (r + 1) := by omega
    rw [harith]

/-- C1, amended part, packaged over _copy_file: under silent validation the
outcome of _copy_file is decided by the final attempt's copy outcome. -/
theorem copy_file_abs_silent (retry d : Nat) (copyRes validateRes : Nat → Option Err)
    (hv : ∀ n, validateRes n = none) :
    (copy_file_abs retry d true copyRes validateRes).1.copies = retry + 1 ∧
    (copy_file_abs retry d true copyRes validateRes).1.vals = retry + 1 ∧
    (copy_file_abs retry d true copyRes validateRes).1.exit = .completed (copyRes retry) ∧
    (copy_file_abs retry d true copyRes validateRes).2
      = (match copyRes retry with
         | none => .ok ()
         | some e => .error e) := by
  have h := copyLoop_abs_silent copyRes validateRes d hv retry 0 none
  rw [Nat.zero_add] at h
  have hif : copy_file_abs retry d true copyRes validateRes
      = (copyLoop (abstractAttempts copyRes validateRes) d (retry + 1) 0 () none,
         match (copyLoop (abstractAttempts copyRes validateRes) d (retry + 1) 0 () none).exit with
         | .raised e => .error e
         | .completed (some e) => .error e
         | .completed none => .ok ()) := rfl
  rw [hif]
  refine ⟨h.1, h.2.1, h.2.2, ?_⟩
  rw [h.2.2]
  cases hc : copyRes retry <;> simp

/-! ### Claim C1: how validation interacts with the retry loop -/

/-- Claim C1, counterexample.  Input: retry_count 2, a copy step that
succeeds on every attempt, and a validation step that raises ChecksumError
on attempt 0.  The claim says the ChecksumError becomes last_error and the
loop is not aborted early (so all 3 attempts would run and the transfer
would be decided by last_error after the final attempt, here a success).
In the code the validate call sits outside the try/except: the loop aborts
after a single copy attempt and the transfer fails with the ChecksumError. -/
theorem C1_counterexample :
    (copy_file_abs 2 4 true (fun _ => none)
        (fun n => if n = 0 then some (.checksumError "a" "b") else none)).1.copies = 1 ∧
    (copy_file_abs 2 4 true (fun _ => none)
        (fun n => if n = 0 then some (.checksumError "a" "b") else none)).1.copies ≠ 2 + 1 ∧
    (copy_file_abs 2 4 true (fun _ => none)
        (fun n => if n = 0 then some (.checksumError "a" "b") else none)).2
      = .error (.checksumError "a" "b") :=
  ⟨rfl, by decide, rfl⟩

/-- Claim C1, amended.  For every transfer whose validation step raises no
error, validation runs on every one of the retry_count + 1 attempts
(including attempts whose copy raised an error, since copyRes is arbitrary
here), and success or failure is decided only by what last_error holds
after the final attempt — which, because last_error is reset at the top of
each iteration, is the final attempt's copy outcome.  (When validation does
raise, the error aborts the loop at once instead of becoming last_error:
see the counterexample.) -/
theorem C1_validation_every_attempt (retry d : Nat)
    (copyRes validateRes : Nat → Option Err) (hv : ∀ n, validateRes n = none) :
    (copy_file_abs retry d true copyRes validateRes).1.vals = retry + 1 ∧
    (copy_file_abs retry d true copyRes validateRes).1.copies = retry + 1 ∧
    (copy_file_abs retry d true copyRes validateRes).2
      = (match copyRes retry with
         | none => .ok ()
         | some e => .error e) :=
  ⟨(copy_file_abs_silent retry d copyRes validateRes hv).2.1,
   (copy_file_abs_silent retry d copyRes validateRes hv).1,
   (copy_file_abs_silent retry d copyRes validateRes hv).2.2.2⟩

/-- Claim C1, witness: the amended theorem at retry_count 2 with a copy
step that fails on every attempt and a silent validation step: validation
ran on all 3 attempts even though every copy raised. -/
theorem C1_witness :
    (copy_file_abs 2 4 true (fun _ => some (.ioError "copy boom")) (fun _ => none)).1.vals = 3 ∧
    (copy_file_abs 2 4 true (fun _ => some (.ioError "copy boom")) (fun _ => none)).1.copies = 3 ∧
    (copy_file_abs 2 4 true (fun _ => some (.ioError "copy boom")) (fun _ => none)).2
      = .error (.ioError "copy boom") :=
  C1_validation_every_attempt 2 4 (fun _ => some (.ioError "copy boom")) (fun _ => none)
    (fun _ => rfl)

/-! ### Claim C2: attempt count and final raise -/

/-- Claim C2, counterexample.  A transfer whose copy step fails
deterministically on every attempt with retry_count 2 — exactly the
scenario of the claim — but whose validation step raises on attempt 0 (as
the real validation does when the failed copy left no destination file to
checksum).  Only 1 copy attempt is performed, not 3, and the raised error
is the validation error, not the last copy error. -/
theorem C2_counterexample :
    (copy_file_abs 2 4 true (fun _ => some (.ioError "copy failed"))
        (fun n => if n = 0 then some (.ioError "No such file or directory: dest") else none)).1.copies
      = 1 ∧
    (copy_file_abs 2 4 true (fun _ => some (.ioError "copy failed"))
        (fun n => if n = 0 then some (.ioError "No such file or directory: dest") else none)).1.copies
      ≠ 2 + 1 ∧
    (copy_file_abs 2 4 true (fun _ => some (.ioError "copy failed"))
        (fun n => if n = 0 then some (.ioError "No such file or directory: dest") else none)).2
      = .error (.ioError "No such file or directory: dest") :=
  ⟨rfl, by decide, rfl⟩

/-- Claim C2, amended.  For every transfer whose validation step raises no
error: the retry loop performs exactly retry_count + 1 copy attempts with
no early exit after a successful attempt (copyRes is arbitrary, so this
covers attempts that succeed), and when every attempt failed the last
observed error — the final attempt's — is raised to the caller. -/
theorem C2_attempt_count_no_early_exit (retry d : Nat)
    (copyRes validateRes : Nat → Option Err) (efun : Nat → Err)
    (hv : ∀ n, validateRes n = none) :
    (copy_file_abs retry d true copyRes validateRes).1.copies = retry + 1 ∧
    ((∀ n, n ≤ retry → copyRes n = some (efun n)) →
      (copy_file_abs retry d true copyRes validateRes).2 = .error (efun retry)) := by
  have h := copy_file_abs_silent retry d copyRes validateRes hv
  refine ⟨h.1, fun hfail => ?_⟩
  rw [h.2.2.2, hfail retry (Nat.le_refl retry)]

/-- Claim C2, witness: the amended theorem at retry_count 2 with a copy
step that fails deterministically on every attempt: 3 copy attempts, then
the error is raised. -/
theorem C2_witness :
    (copy_file_abs 2 4 true (fun _ => some (.ioError "permanent failure"))
        (fun _ => none)).1.copies = 3 ∧
    (copy_file_abs 2 4 true (fun _ => some (.ioError "permanent failure"))
        (fun _ => none)).2 = .error (.ioError "permanent failure") := by
  have h := C2_attempt_count_no_early_exit 2 4 (fun _ => some (.ioError "permanent failure"))
    (fun _ => none) (fun _ => .ioError "permanent failure") (fun _ => rfl)
  exact ⟨h.1, h.2 (fun n _ => rfl)⟩

/-! ### Claim C3: the collision loop of register -/

/-- When every synthesized candidate exists on disk, the collision loop of
register never terminates: file_count stays 1 (the loop body never
increments it), so the loop condition never becomes false and any amount of
fuel is exhausted. -/
theorem registerLoop_allExists_none (base : String) (uuids : Nat → String) :
    ∀ (fuel idx : Nat) (tf : String),
      registerLoop base uuids (fun _ => true) fuel idx tf 1 = none := by
  intro fuel
  induction fuel with
  | zero => intro idx tf; rfl
  | succ fuel ih =>
    intro idx tf
    exact ih (idx + 1) (mkTempName base (uuids idx))

/-- register under the all-candidates-exist oracle never returns, whatever
the fuel. -/
theorem register_allExists_none (temp_dir file_name : String) (uuids : Nat → String) :
    ∀ fuel, register temp_dir file_name uuids (fun _ => true) fuel = none := by
  intro fuel
  simp [register, registerLoop_allExists_none]

/-- Claim C3.  The claim says synthesis is retried at most 2 additional
times, that a third collision raises a name-resolution error, and that
register always terminates.  The code never increments file_count inside
the collision loop, so: (1) with an exists oracle under which the first
synthesized path and the next three retry candidates all exist but the
fifth does not, register performs 4 synthesis retries and returns the
fifth candidate successfully — more than 2 retries and no error; and (2)
with an oracle under which every candidate exists, register never
terminates (the fuelled loop returns the out-of-fuel marker for every
fuel). -/
theorem C3_register_retry_unbounded :
    register "temp" "f" (fun n => "u" ++ toString n)
      (fun p => (["temp/f.u0.tmp", "f.u1.tmp", "f.u2.tmp", "f.u3.tmp"] : List String).contains p)
      10 = some ⟨.ok "f.u4.tmp", 4⟩ ∧
    ∀ fuel : Nat,
      register "temp" "f" (fun n => "u" ++ toString n) (fun _ => true) fuel = none :=
  ⟨by decide, register_allExists_none "temp" "f" (fun n => "u" ++ toString n)⟩

/-! ### Claim C6: the retry loop of _rm_file -/

/-- Claim C6.  The claim says _rm_file raises the last observed error if
and only if every attempt failed, returning without raising when some
attempt succeeds.  In the code last_ex is never reset inside the loop, so
with retry_count 1 and a removal that fails on attempt 0 and succeeds on
attempt 1, the file is removed (the loop breaks on the successful second
attempt) and yet the stale attempt-0 error is raised afterwards. -/
theorem C6_stale_error_after_success :
    (rm_file_abs 1 4 true
        (fun n => if n = 0 then some (.ioError "disk busy") else none)).1.removed = true ∧
    (rm_file_abs 1 4 true
        (fun n => if n = 0 then some (.ioError "disk busy") else none)).1.attempts = 2 ∧
    (rm_file_abs 1 4 true
        (fun n => if n = 0 then some (.ioError "disk busy") else none)).2
      = .error (.ioError "disk busy") :=
  ⟨rfl, rfl, rfl⟩

/-! ### Claim C7: where register's temp paths live -/

/-- Claim C7.  The claim says every path register returns lies inside
temp_directory, for the first synthesized name and equally for names
synthesized on a collision retry.  The first name is joined onto temp_dir,
but the names synthesized inside the collision loop are bare file names
(the join is missing in the source), so after a single collision register
returns a path outside temp_directory. -/
theorem C7_retry_name_escapes_temp_dir :
    register "temp" "f" (fun n => "u" ++ toString n) (fun p => p == "temp/f.u0.tmp") 10
      = some ⟨.ok "f.u1.tmp", 1⟩ ∧
    insideDir "temp" "temp/f.u0.tmp" = true ∧
    insideDir "temp" "f.u1.tmp" = false :=
  ⟨by decide, by decide, by decide⟩

/-! ### Claim C9: an unparseable bandwidth value -/

/-- The cache configuration of the C9 scenario with validation enabled. -/
def cfgC9V : Cfg := ⟨"temp", 2, 4, false, some "abc", true⟩

/-- The cache configuration of the C9 scenario with validation disabled. -/
def cfgC9NV : Cfg := ⟨"temp", 2, 4, false, some "abc", false⟩

/-- Claim C9, counterexample.  With the default validation enabled, the
parse error raised inside the guarded copy step is captured as last_error,
but the unguarded validation step then compares the source against the
empty destination file that copyfile truncated into existence, raises
ChecksumError, and aborts the loop after a single attempt.  The error
surfacing from flush is the ChecksumError, not the parse error, and no
retrying takes place — against the claim's "retried with backoff before
being raised". -/
theorem C9_counterexample :
    (copy_file cfgC9V "temp/f.u0.tmp" "/d/f" [("temp/f.u0.tmp", "DATA")]).result
      = .error (.checksumError "DATA" "") ∧
    (copy_file cfgC9V "temp/f.u0.tmp" "/d/f" [("temp/f.u0.tmp", "DATA")]).copies = 1 ∧
    (copy_file cfgC9V "temp/f.u0.tmp" "/d/f" [("temp/f.u0.tmp", "DATA")]).result
      ≠ .error (.valueError "Unrecognized size specification: abc") :=
  ⟨rfl, rfl, by decide⟩

/-- Claim C9, amended.  An unparseable bandwidth value is not rejected at
construction (init stores it unparsed) nor at registration; the parse
error first surfaces during flush inside the guarded copy step, where it is
captured as the attempt's last_error.  When the validation step raises
nothing (here: validation disabled), it is retried with backoff across all
retry_count + 1 attempts and finally raised; with validation enabled the
unguarded validation raises first and masks it (see the counterexample). -/
theorem C9_parse_error_at_flush :
    TempCache.init "temp" 2 4 false (some "abc") false = .ok cfgC9NV ∧
    register "temp" "f" (fun n => "u" ++ toString n) (fun _ => false) 10
      = some ⟨.ok "temp/f.u0.tmp", 0⟩ ∧
    parse_bandwidth "abc" = .error (.valueError "Unrecognized size specification: abc") ∧
    (copy_file cfgC9NV "temp/f.u0.tmp" "/d/f" [("temp/f.u0.tmp", "DATA")]).copies = 3 ∧
    (copy_file cfgC9NV "temp/f.u0.tmp" "/d/f" [("temp/f.u0.tmp", "DATA")]).sleeps = [4, 16] ∧
    (copy_file cfgC9NV "temp/f.u0.tmp" "/d/f" [("temp/f.u0.tmp", "DATA")]).result
      = .error (.valueError "Unrecognized size specification: abc") :=
  ⟨rfl, rfl, rfl, rfl, rfl, rfl⟩

/-! ### Claim C8: bandwidth parsing -/

/-- The final flooring and clamping step of _parse_bandwidth always yields
a positive multiple of 1024. -/
theorem floor1024_clamp (a : Nat) :
    1024 ∣ (if a * 1024 = 0 then 1024 else a * 1024) ∧
    1024 ≤ (if a * 1024 = 0 then 1024 else a * 1024) := by
  by_cases hz : a * 1024 = 0
  · rw [if_pos hz]
    exact ⟨dvd_refl 1024, Nat.le_refl 1024⟩
  · rw [if_neg hz]
    have ha : 1 ≤ a := by
      rcases Nat.eq_zero_or_pos a with h0 | h1
      · exact absurd (by rw [h0, Nat.zero_mul]) hz
      · exact h1
    refine ⟨dvd_mul_left 1024 a, ?_⟩
    calc (1024 : Nat) = 1 * 1024 := (Nat.one_mul 1024).symm
      _ ≤ a * 1024 := Nat.mul_le_mul_right 1024 ha

/-- Claim C8.  Bandwidth parsing maps "10" to 10240 bytes, "1M" to 1048576,
"0" to 1024, fails with a parse error on "abc", and for every accepted
specification string the result is a multiple of 1024 that is at least
1024. -/
theorem C8_parse_bandwidth_values :
    parse_bandwidth "10" = .ok 10240 ∧
    parse_bandwidth "1M" = .ok 1048576 ∧
    parse_bandwidth "0" = .ok 1024 ∧
    parse_bandwidth "abc" = .error (.valueError "Unrecognized size specification: abc") ∧
    ∀ (s : String) (n : Nat), parse_bandwidth s = .ok n → 1024 ∣ n ∧ 1024 ≤ n := by
  refine ⟨rfl, rfl, rfl, rfl, ?_⟩
  intro s n h
  unfold parse_bandwidth at h
  rcases hm : bwMatch s.data with _ | ⟨i, f, m⟩
  · rw [hm] at h
    exact Except.noConfusion h
  · rw [hm] at h
    dsimp only at h
    have hn := Except.ok.inj h
    rw [← hn]
    exact floor1024_clamp _

/-- Claim C8, witness: the general clause applied at the accepted string
"10" with value 10240. -/
theorem C8_witness : 1024 ∣ 10240 ∧ 1024 ≤ 10240 :=
  C8_parse_bandwidth_values.2.2.2.2 "10" 10240 rfl

/-! ### Claim C5: the scope-exit contract -/

/-- Claim C5.  On scope exit: do_copy runs exactly when the scope exits
normally or copy_on_err is set; the handler never returns True (so an
in-scope exception is never suppressed); and when do_copy raises, that
error propagates out of the handler. -/
theorem C5_scope_exit_contract (cfg : Cfg) (entries : List CacheEntry) (fs : FS)
    (ex_type : Option Err) :
    ((TempCache.exitScope cfg entries fs ex_type).1 = true
       ↔ (ex_type = none ∨ cfg.copy_on_err = true)) ∧
    ((TempCache.exitScope cfg entries fs ex_type).2.2 ≠ .ok true) ∧
    (∀ e : Err, (ex_type = none ∨ cfg.copy_on_err = true) →
      (do_copy cfg entries fs).2 = .error e →
      (TempCache.exitScope cfg entries fs ex_type).2.2 = .error e) := by
  unfold TempCache.exitScope
  by_cases hc : (ex_type.isNone || cfg.copy_on_err) = true
  · rw [if_pos hc]
    have hc' : ex_type = none ∨ cfg.copy_on_err = true := by
      rcases Bool.or_eq_true_iff.mp hc with h | h
      · exact Or.inl (Option.isNone_iff_eq_none.mp h)
      · exact Or.inr h
    refine ⟨⟨fun _ => hc', fun _ => rfl⟩, ?_, ?_⟩
    · cases hr : (do_copy cfg entries fs).2 with
      | ok u => dsimp only; rw [hr]; exact fun hcontra => Except.ok.inj hcontra |> Bool.noConfusion
      | error e => dsimp only; rw [hr]; exact fun hcontra => Except.noConfusion hcontra
    · intro e _ hdc
      dsimp only
      rw [hdc]
  · rw [if_neg hc]
    have hc' : ¬(ex_type = none ∨ cfg.copy_on_err = true) := by
      intro hor
      apply hc
      rcases hor with h | h
      · rw [h]; rfl
      · rw [h, Bool.or_true]
    refine ⟨⟨fun hf => absurd hf (by simp), fun hor => absurd hor hc'⟩, ?_, ?_⟩
    · exact fun hcontra => Except.ok.inj hcontra |> Bool.noConfusion
    · exact fun e hor _ => absurd hor hc'

/-- The cache configuration of the C5 witness: copy_on_err set. -/
def cfgC5 : Cfg := ⟨"t", 2, 4, true, none, true⟩

/-- The entry list of the C5 witness: one entry whose temp file is missing,
so do_copy raises its precondition error. -/
def entsC5 : List CacheEntry := [⟨"/d/a", "t/a.tmp", "a", true⟩]

/-- Claim C5, witness: the contract applied on an error exit with
copy_on_err set and a failing do_copy: the flush error propagates. -/
theorem C5_witness :
    (TempCache.exitScope cfgC5 entsC5 [] (some (.ioError "user error"))).2.2
      = .error (.ioError "Cannot copy temp file: File does not exist: t/a.tmp") :=
  (C5_scope_exit_contract cfgC5 entsC5 [] (some (.ioError "user error"))).2.2
    (.ioError "Cannot copy temp file: File does not exist: t/a.tmp")
    (Or.inr rfl) (by decide)

/-! ### Claim C4: flush order and the first permanent failure -/

/-- Claim C4.  do_copy processes entries in insertion order; when the
entries before `bad` all processed successfully (taking the filesystem from
fs0 to fs1) and the copy of `bad` fails with err, the whole flush returns
exactly the state left by the failing entry together with err: the entries
before `bad` have already had their effect (it is contained in fs1, which
the failing step only changes to fs2), the error raised is the failing
entry's, and no entry after `bad` is processed at all — the final state is
fs2, so any destination absent from fs2 (in particular those of the later
entries) is absent from the final state. -/
theorem C4_flush_in_order_stops_at_failure
    (copyOne rmOne : CacheEntry → FS → FS × Except Err Unit)
    (pre post : List CacheEntry) (bad : CacheEntry) (fs0 fs1 fs2 : FS) (err : Err)
    (h1 : doCopyWith copyOne rmOne pre fs0 = (fs1, .ok ()))
    (h2 : copyOne bad fs1 = (fs2, .error err)) :
    doCopyWith copyOne rmOne (pre ++ bad :: post) fs0 = (fs2, .error err) := by
  revert fs0
  induction pre with
  | nil =>
    intro fs0 h1
    have h1' : (fs0, (Except.ok () : Except Err Unit)) = (fs1, Except.ok ()) := h1
    injection h1' with hfs _
    subst hfs
    simp only [List.nil_append, doCopyWith, h2]
  | cons hd tl ih =>
    intro fs0 h1
    rcases hc : copyOne hd fs0 with ⟨fsA, rA⟩
    cases rA with
    | error e =>
      simp only [doCopyWith, hc] at h1
      exact Except.noConfusion (congrArg Prod.snd h1)
    | ok u =>
      cases u
      cases hrm : hd.do_rm with
      | true =>
        rcases hr : rmOne hd fsA with ⟨fsB, rB⟩
        cases rB with
        | error e =>
          simp only [doCopyWith, hc, hrm, if_true, hr] at h1
          exact Except.noConfusion (congrArg Prod.snd h1)
        | ok u2 =>
          cases u2
          simp only [doCopyWith, hc, hrm, if_true, hr] at h1
          simp only [List.cons_append, doCopyWith, hc, hrm, if_true, hr]
          exact ih fsB h1
      | false =>
        simp only [doCopyWith, hc, hrm, if_false] at h1
        simp only [List.cons_append, doCopyWith, hc, hrm, if_false]
        exact ih fsA h1

/-- The cache configuration of the C4 witness. -/
def cfgC4 : Cfg := ⟨"t", 2, 4, false, none, true⟩

/-- C4 witness entry 1: copies cleanly. -/
def entC4a : CacheEntry := ⟨"/d/a", "t/a.tmp", "a", true⟩

/-- C4 witness entry 2: engineered to fail permanently — its destination
equals its temp path, so every one of the 3 copy attempts raises
SameFileError and the last one is rethrown. -/
def entC4b : CacheEntry := ⟨"t/b.tmp", "t/b.tmp", "b", true⟩

/-- C4 witness entry 3: never reached. -/
def entC4c : CacheEntry := ⟨"/d/c", "t/c.tmp", "c", true⟩

/-- The initial filesystem of the C4 witness. -/
def fsC4 : FS := [("t/a.tmp", "A"), ("t/b.tmp", "B"), ("t/c.tmp", "C")]

/-- The final filesystem of the C4 witness run. -/
def fsC4final : FS := [("/d/a", "A"), ("t/c.tmp", "C")]

/-- Claim C4, witness: three registered entries, the second failing
permanently.  After the flush raises the second entry's error, entry 1's
destination exists and entry 3's destination does not. -/
theorem C4_witness :
    doCopyWith (copyOneFS cfgC4) (rmOneFS cfgC4) ([entC4a] ++ entC4b :: [entC4c]) fsC4
      = (fsC4final, .error (.sameFileError "t/b.tmp" "t/b.tmp")) ∧
    FS.lookup fsC4final "/d/a" = some "A" ∧
    FS.lookup fsC4final "/d/c" = none :=
  ⟨C4_flush_in_order_stops_at_failure (copyOneFS cfgC4) (rmOneFS cfgC4)
      [entC4a] [entC4c] entC4b fsC4
      [("/d/a", "A"), ("t/b.tmp", "B"), ("t/c.tmp", "C")] fsC4final
      (.sameFileError "t/b.tmp" "t/b.tmp") (by decide) (by decide),
   rfl, rfl⟩

/-! ### Support lemmas on the filesystem instance of the copy machinery -/

/-- copyfile touches nothing but the destination path. -/
theorem copyfile_frame (fs : FS) (src dst : String) (bw : Option String) (q : String)
    (hq : q ≠ dst) : FS.lookup (copyfile fs src dst bw).1 q = FS.lookup fs q := by
  unfold copyfile
  by_cases hsd : src = dst
  · rw [if_pos hsd]
  · rw [if_neg hsd]
    cases hsrc : FS.lookup fs src with
    | none => rfl
    | some content =>
      cases bw with
      | none => simp only [FS.lookup_write, if_neg hq]
      | some spec =>
        cases hp : parse_bandwidth spec with
        | error e => simp only [hp, FS.lookup_write, if_neg hq]
        | ok k => simp only [hp, FS.lookup_write, if_neg hq]

/-- Without a bandwidth limit, copying an existing file onto a different
path writes the source content to the destination and succeeds. -/
theorem copyfile_success (fs : FS) (src dst v : String) (hsd : src ≠ dst)
    (hsrc : FS.lookup fs src = some v) :
    copyfile fs src dst none = (FS.write fs dst v, none) := by
  unfold copyfile
  rw [if_neg hsd, hsrc]
  dsimp only
  rw [FS.write_write]

/-- Validation is silent when source and destination hold equal content. -/
theorem validate_copy_eq_none (b : Bool) (fs : FS) (t d v : String)
    (ht : FS.lookup fs t = some v) (hd : FS.lookup fs d = some v) :
    validate_copy b fs t d = none := by
  cases b with
  | false => rfl
  | true =>
    unfold validate_copy get_checksum
    rw [ht, hd]
    simp

/-- The attempt loop, over any state type, when the copy step acts as an
idempotent success and the validation step is silent on copied states: the
loop completes with no last error and the state of one copy step. -/
theorem copyLoop_stable_general {σ : Type} (fns : AttemptFns σ) (d : Nat)
    (P : σ → Prop) (step : σ → σ)
    (hcopy : ∀ n s, P s → fns.copyStep n s = (step s, none))
    (hval : ∀ n s, P s → fns.validateStep n (step s) = none)
    (hP : ∀ s, P s → P (step s))
    (hidem : ∀ s, P s → step (step s) = step s) :
    ∀ (r n_try : Nat) (s : σ) (le : Option Err), P s →
      (copyLoop fns d (r + 1) n_try s le).state = step s ∧
      (copyLoop fns d (r + 1) n_try s le).exit = .completed none := by
  intro r
  induction r with
  | zero =>
    intro n_try s le hs
    rw [copyLoop]
    dsimp only
    rw [hcopy n_try s hs]
    dsimp only
    rw [hval n_try s hs]
    dsimp only
    rw [copyLoop]
    exact ⟨rfl, rfl⟩
  | succ r ih =>
    intro n_try s le hs
    rw [copyLoop]
    dsimp only
    rw [hcopy n_try s hs]
    dsimp only
    rw [hval n_try s hs]
    dsimp only
    have hrec := ih (n_try + 1) (step s) none (hP s hs)
    refine ⟨?_, hrec.2⟩
    rw [hrec.1, hidem s hs]

/-- The attempt loop preserves every observation the copy step preserves. -/
theorem copyLoop_frame_general (fns : AttemptFns FS) (d : Nat) (q : String)
    (hstep : ∀ (n : Nat) (s : FS), FS.lookup (fns.copyStep n s).1 q = FS.lookup s q) :
    ∀ (r n_try : Nat) (s : FS) (le : Option Err),
      FS.lookup (copyLoop fns d r n_try s le).state q = FS.lookup s q := by
  intro r
  induction r with
  | zero => intro n_try s le; rw [copyLoop]
  | succ r ih =>
    intro n_try s le
    rw [copyLoop]
    dsimp only
    cases hval : fns.validateStep n_try (fns.copyStep n_try s).1 with
    | some e =>
      dsimp only
      exact hstep n_try s
    | none =>
      dsimp only
      rw [ih (n_try + 1) (fns.copyStep n_try s).1 (fns.copyStep n_try s).2, hstep n_try s]

/-- The attempt loop over the filesystem instance, when the temp file is
present, the paths differ and no bandwidth limit is set: every attempt
rewrites the same destination content, validation passes, and the loop
completes with no last error. -/
theorem copyLoop_fs_stable (cfg : Cfg) (t d v : String) (hbw : cfg.bandwidth = none)
    (htd : t ≠ d) :
    ∀ (r n_try : Nat) (s : FS) (le : Option Err), FS.lookup s t = some v →
      (copyLoop (fsAttempts cfg t d) cfg.retry_delay (r + 1) n_try s le).state
          = FS.write s d v ∧
      (copyLoop (fsAttempts cfg t d) cfg.retry_delay (r + 1) n_try s le).exit
          = .completed none := by
  have hwt : ∀ s : FS, FS.lookup s t = some v →
      FS.lookup (FS.write s d v) t = some v := by
    intro s hs
    rw [FS.lookup_write, if_neg htd]
    exact hs
  have hwd : ∀ s : FS, FS.lookup (FS.write s d v) d = some v := by
    intro s
    rw [FS.lookup_write, if_pos rfl]
  intro r n_try s le hs
  refine copyLoop_stable_general (fsAttempts cfg t d) cfg.retry_delay
    (fun s => FS.lookup s t = some v) (fun s => FS.write s d v)
    ?_ ?_ ?_ ?_ r n_try s le hs
  · intro n s hs'
    show copyfile s t d cfg.bandwidth = (FS.write s d v, none)
    rw [hbw]
    exact copyfile_success s t d v htd hs'
  · intro n s hs'
    exact validate_copy_eq_none cfg.validate (FS.write s d v) t d v (hwt s hs') (hwd s)
  · exact hwt
  · intro s hs'
    exact FS.write_write s d v v

/-- _copy_file on a present temp file, distinct destination and no
bandwidth limit: it writes the content to the destination and succeeds. -/
theorem copy_file_success (cfg : Cfg) (t d v : String) (hbw : cfg.bandwidth = none)
    (htd : t ≠ d) (fs : FS) (hs : FS.lookup fs t = some v) :
    (copy_file cfg t d fs).fs = FS.write fs d v ∧
    (copy_file cfg t d fs).result = .ok () := by
  unfold copy_file
  rw [show FS.isfile fs t = true from by rw [FS.isfile, hs]; rfl]
  dsimp only
  have h := copyLoop_fs_stable cfg t d v hbw htd cfg.retry 0 fs none hs
  rw [h.2]
  exact ⟨h.1, rfl⟩

/-- _copy_file on a missing temp file raises the existence precondition
error at once, leaving the filesystem untouched. -/
theorem copy_file_missing (cfg : Cfg) (t d : String) (fs : FS)
    (hs : FS.lookup fs t = none) :
    copy_file cfg t d fs
      = ⟨fs, 0, 0, [],
         .error (.ioError ("Cannot copy temp file: File does not exist: " ++ t))⟩ := by
  unfold copy_file
  rw [show FS.isfile fs t = false from by rw [FS.isfile, hs]; rfl]
  rfl

/-- The attempt loop of the filesystem instance touches nothing but the
destination path. -/
theorem copyLoop_fs_frame (cfg : Cfg) (t d q : String) (hq : q ≠ d) :
    ∀ (r n_try : Nat) (s : FS) (le : Option Err),
      FS.lookup (copyLoop (fsAttempts cfg t d) cfg.retry_delay r n_try s le).state q
        = FS.lookup s q := by
  intro r n_try s le
  refine copyLoop_frame_general (fsAttempts cfg t d) cfg.retry_delay q ?_ r n_try s le
  intro n s'
  exact copyfile_frame s' t d cfg.bandwidth q hq

/-- _copy_file touches nothing but the destination path (the post-failure
cleanup also only removes the destination). -/
theorem copy_file_frame (cfg : Cfg) (t d : String) (fs : FS) (q : String) (hq : q ≠ d) :
    FS.lookup (copy_file cfg t d fs).fs q = FS.lookup fs q := by
  unfold copy_file
  cases hf : FS.isfile fs t with
  | false => rfl
  | true =>
    dsimp only
    cases hex : (copyLoop (fsAttempts cfg t d) cfg.retry_delay (cfg.retry + 1) 0 fs none).exit with
    | raised e =>
      dsimp only
      exact copyLoop_fs_frame cfg t d q hq (cfg.retry + 1) 0 fs none
    | completed le =>
      cases le with
      | none =>
        dsimp only
        exact copyLoop_fs_frame cfg t d q hq (cfg.retry + 1) 0 fs none
      | some e =>
        dsimp only
        by_cases hdf : FS.isfile
            (copyLoop (fsAttempts cfg t d) cfg.retry_delay (cfg.retry + 1) 0 fs none).state d = true
        · rw [if_pos hdf]
          show FS.lookup (FS.removeKey
              (copyLoop (fsAttempts cfg t d) cfg.retry_delay (cfg.retry + 1) 0 fs none).state d) q
            = FS.lookup fs q
          rw [FS.lookup_removeKey, if_neg hq]
          exact copyLoop_fs_frame cfg t d q hq (cfg.retry + 1) 0 fs none
        · rw [if_neg hdf]
          exact copyLoop_fs_frame cfg t d q hq (cfg.retry + 1) 0 fs none

/-- If _copy_file returned ok, the temp file existed beforehand. -/
theorem copy_file_ok_isfile (cfg : Cfg) (t d : String) (fs : FS)
    (h : (copy_file cfg t d fs).result = .ok ()) : (FS.lookup fs t).isSome = true := by
  cases hs : FS.lookup fs t with
  | some v => rfl
  | none =>
    rw [copy_file_missing cfg t d fs hs] at h
    exact Except.noConfusion h

/-- _rm_file on a present file removes it on the first attempt and returns
ok; on a missing file it raises the existence precondition error and leaves
the filesystem untouched. -/
theorem rm_file_char (cfg : Cfg) (f : String) (fs : FS) :
    (FS.lookup fs f = none ∧ rm_file cfg f fs
        = (fs, .error (.ioError ("Cannot remove file: File does not exist: " ++ f)))) ∨
    (∃ v, FS.lookup fs f = some v ∧ rm_file cfg f fs = (FS.removeKey fs f, .ok ())) := by
  cases hs : FS.lookup fs f with
  | none =>
    left
    refine ⟨rfl, ?_⟩
    unfold rm_file
    rw [show FS.isfile fs f = false from by rw [FS.isfile, hs]; rfl]
    rfl
  | some v =>
    right
    refine ⟨v, rfl, ?_⟩
    unfold rm_file
    rw [show FS.isfile fs f = true from by rw [FS.isfile, hs]; rfl]
    dsimp only
    rw [rmLoop]
    dsimp only
    rw [show fsRemove fs f = (FS.removeKey fs f, none) from by
      unfold fsRemove
      rw [show FS.isfile fs f = true from by rw [FS.isfile, hs]; rfl]
      rfl]
    rfl

/-- do_copy never creates a path that is not some entry's destination. -/
theorem do_copy_no_create (cfg : Cfg) (q : String) :
    ∀ (L : List CacheEntry) (fs : FS),
      (∀ x ∈ L, x.file_path ≠ q) → FS.lookup fs q = none →
      FS.lookup (do_copy cfg L fs).1 q = none := by
  intro L
  induction L with
  | nil => intro fs _ hq; exact hq
  | cons e rest ih =>
    intro fs hL hq
    have hfp : e.file_path ≠ q := hL e (List.mem_cons_self e rest)
    have hrest : ∀ x ∈ rest, x.file_path ≠ q := fun x hx => hL x (List.mem_cons_of_mem e hx)
    have hcf : FS.lookup (copy_file cfg e.temp_file e.file_path fs).fs q = none := by
      rw [copy_file_frame cfg e.temp_file e.file_path fs q (Ne.symm hfp)]
      exact hq
    cases hres : (copy_file cfg e.temp_file e.file_path fs).result with
    | error err =>
      simp only [do_copy, doCopyWith, copyOneFS, rmOneFS, hres]
      exact hcf
    | ok u =>
      cases u
      cases hrm : e.do_rm with
      | true =>
        rcases rm_file_char cfg e.temp_file (copy_file cfg e.temp_file e.file_path fs).fs with
          ⟨hn, hrmres⟩ | ⟨v, hsv, hrmres⟩
        · simp only [do_copy, doCopyWith, copyOneFS, rmOneFS, hres, hrm, if_true, hrmres]
          exact hcf
        · simp only [do_copy, doCopyWith, copyOneFS, rmOneFS, hres, hrm, if_true, hrmres]
          have hq2 : FS.lookup
              (FS.removeKey (copy_file cfg e.temp_file e.file_path fs).fs e.temp_file) q
              = none := by
            rw [FS.lookup_removeKey]
            by_cases hqt : q = e.temp_file
            · rw [if_pos hqt]
            · rw [if_neg hqt]; exact hcf
          exact ih _ hrest hq2
      | false =>
        simp only [do_copy, doCopyWith, copyOneFS, rmOneFS, hres, hrm, if_false]
        exact ih _ hrest hcf

/-- do_copy preserves the content of every path that is neither some
entry's destination nor some entry's temp file. -/
theorem do_copy_preserve (cfg : Cfg) (q : String) :
    ∀ (L : List CacheEntry) (fs : FS),
      (∀ x ∈ L, x.file_path ≠ q) → (∀ x ∈ L, x.temp_file ≠ q) →
      FS.lookup (do_copy cfg L fs).1 q = FS.lookup fs q := by
  intro L
  induction L with
  | nil => intro fs _ _; rfl
  | cons e rest ih =>
    intro fs hLf hLt
    have hfp : e.file_path ≠ q := hLf e (List.mem_cons_self e rest)
    have htp : e.temp_file ≠ q := hLt e (List.mem_cons_self e rest)
    have hrf : ∀ x ∈ rest, x.file_path ≠ q := fun x hx => hLf x (List.mem_cons_of_mem e hx)
    have hrt : ∀ x ∈ rest, x.temp_file ≠ q := fun x hx => hLt x (List.mem_cons_of_mem e hx)
    have hcf : FS.lookup (copy_file cfg e.temp_file e.file_path fs).fs q = FS.lookup fs q :=
      copy_file_frame cfg e.temp_file e.file_path fs q (Ne.symm hfp)
    cases hres : (copy_file cfg e.temp_file e.file_path fs).result with
    | error err =>
      simp only [do_copy, doCopyWith, copyOneFS, rmOneFS, hres]
      exact hcf
    | ok u =>
      cases u
      cases hrm : e.do_rm with
      | true =>
        rcases rm_file_char cfg e.temp_file (copy_file cfg e.temp_file e.file_path fs).fs with
          ⟨hn, hrmres⟩ | ⟨v, hsv, hrmres⟩
        · simp only [do_copy, doCopyWith, copyOneFS, rmOneFS, hres, hrm, if_true, hrmres]
          exact hcf
        · simp only [do_copy, doCopyWith, copyOneFS, rmOneFS, hres, hrm, if_true, hrmres]
          have hstep : FS.lookup
              (FS.removeKey (copy_file cfg e.temp_file e.file_path fs).fs e.temp_file) q
              = FS.lookup fs q := by
            rw [FS.lookup_removeKey, if_neg (Ne.symm htp)]
            exact hcf
          have hrec := ih
            (FS.removeKey (copy_file cfg e.temp_file e.file_path fs).fs e.temp_file) hrf hrt
          rw [hstep] at hrec
          exact hrec
      | false =>
        simp only [do_copy, doCopyWith, copyOneFS, rmOneFS, hres, hrm, if_false]
        have hrec := ih (copy_file cfg e.temp_file e.file_path fs).fs hrf hrt
        rw [hcf] at hrec
        exact hrec

/-- After a fully successful flush whose destinations never alias a temp
path and whose temp paths are distinct: every entry flushed with do_rm has
its temp file gone, and every entry flushed without do_rm still has its
temp file. -/
theorem do_copy_ok_temp_status (cfg : Cfg) :
    ∀ (L : List CacheEntry) (fs fs' : FS),
      do_copy cfg L fs = (fs', .ok ()) →
      (∀ a ∈ L, ∀ b ∈ L, a.file_path ≠ b.temp_file) →
      ((L.map (fun x => x.temp_file)).Nodup) →
      ∀ x ∈ L, (x.do_rm = true → FS.lookup fs' x.temp_file = none) ∧
               (x.do_rm = false → (FS.lookup fs' x.temp_file).isSome = true) := by
  intro L
  induction L with
  | nil => intro fs fs' _ _ _ x hx; cases hx
  | cons e rest ih =>
    intro fs fs' h1 hsep hnd
    have hsep' : ∀ a ∈ rest, ∀ b ∈ rest, a.file_path ≠ b.temp_file := fun a ha b hb =>
      hsep a (List.mem_cons_of_mem e ha) b (List.mem_cons_of_mem e hb)
    have hnd' : (rest.map (fun x => x.temp_file)).Nodup := by
      rw [List.map_cons] at hnd
      exact hnd.of_cons
    have hself : e.temp_file ≠ e.file_path :=
      Ne.symm (hsep e (List.mem_cons_self e rest) e (List.mem_cons_self e rest))
    cases hres : (copy_file cfg e.temp_file e.file_path fs).result with
    | error err =>
      simp only [do_copy, doCopyWith, copyOneFS, rmOneFS, hres] at h1
      exact absurd (congrArg Prod.snd h1) (fun hcon => Except.noConfusion hcon)
    | ok u =>
      cases u
      have hsome := copy_file_ok_isfile cfg e.temp_file e.file_path fs hres
      have hs1 : FS.lookup (copy_file cfg e.temp_file e.file_path fs).fs e.temp_file
          = FS.lookup fs e.temp_file :=
        copy_file_frame cfg e.temp_file e.file_path fs e.temp_file hself
      cases hrm : e.do_rm with
      | true =>
        rcases rm_file_char cfg e.temp_file (copy_file cfg e.temp_file e.file_path fs).fs with
          ⟨hn, hrmres⟩ | ⟨v, hsv, hrmres⟩
        · simp only [do_copy, doCopyWith, copyOneFS, rmOneFS, hres, hrm, if_true, hrmres] at h1
          exact absurd (congrArg Prod.snd h1) (fun hcon => Except.noConfusion hcon)
        · simp only [do_copy, doCopyWith, copyOneFS, rmOneFS, hres, hrm, if_true, hrmres] at h1
          intro x hx
          rcases List.mem_cons.mp hx with rfl | hx'
          · refine ⟨fun _ => ?_, fun hfalse => absurd hrm (by rw [hfalse]; exact Bool.noConfusion)⟩
            have hgone : FS.lookup
                (FS.removeKey (copy_file cfg x.temp_file x.file_path fs).fs x.temp_file)
                x.temp_file = none := by
              rw [FS.lookup_removeKey, if_pos rfl]
            have hfinal : fs' = (do_copy cfg rest
                (FS.removeKey (copy_file cfg x.temp_file x.file_path fs).fs x.temp_file)).1 :=
              (congrArg Prod.fst h1).symm
            rw [hfinal]
            refine do_copy_no_create cfg x.temp_file rest _ ?_ hgone
            intro y hy
            exact hsep y (List.mem_cons_of_mem x hy) x (List.mem_cons_self x rest)
          · exact ih _ fs' h1 hsep' hnd' x hx'
      | false =>
        simp only [do_copy, doCopyWith, copyOneFS, rmOneFS, hres, hrm, if_false] at h1
        intro x hx
        rcases List.mem_cons.mp hx with rfl | hx'
        · refine ⟨fun htrue => absurd hrm (by rw [htrue]; exact Bool.noConfusion), fun _ => ?_⟩
          have hfinal : fs' = (do_copy cfg rest (copy_file cfg x.temp_file x.file_path fs).fs).1 :=
            (congrArg Prod.fst h1).symm
          rw [hfinal]
          rw [do_copy_preserve cfg x.temp_file rest _ ?_ ?_]
          · rw [hs1]; exact hsome
          · intro y hy
            exact hsep y (List.mem_cons_of_mem x hy) x (List.mem_cons_self x rest)
          · intro y hy
            have := List.map_cons (fun z : CacheEntry => z.temp_file) x rest ▸ hnd
            intro hcontra
            exact (List.nodup_cons.mp this).1 (hcontra ▸ List.mem_map_of_mem (fun z : CacheEntry => z.temp_file) hy)
        · exact ih _ fs' h1 hsep' hnd' x hx'

/-- The second flush over entries whose earlier part copies cleanly: the
first entry whose temp file is missing raises the copy precondition
error. -/
theorem do_copy_second_flush (cfg : Cfg) (e : CacheEntry) (post : List CacheEntry)
    (hbw : cfg.bandwidth = none) :
    ∀ (pre : List CacheEntry) (s : FS),
      (∀ x ∈ pre, x.do_rm = false) →
      (∀ x ∈ pre, x.temp_file ≠ x.file_path) →
      (∀ x ∈ pre, (FS.lookup s x.temp_file).isSome = true) →
      (∀ x ∈ pre, x.file_path ≠ e.temp_file) →
      (∀ x ∈ pre, ∀ y ∈ pre, x.file_path ≠ y.temp_file) →
      FS.lookup s e.temp_file = none →
      (do_copy cfg (pre ++ e :: post) s).2
        = .error (.ioError ("Cannot copy temp file: File does not exist: " ++ e.temp_file)) := by
  intro pre
  induction pre with
  | nil =>
    intro s _ _ _ _ _ hmiss
    simp only [List.nil_append, do_copy, doCopyWith, copyOneFS,
      copy_file_missing cfg e.temp_file e.file_path s hmiss]
  | cons h tl ih =>
    intro s hrm hneq hpresent hnotE hsepPre hmiss
    have hsomeh := hpresent h (List.mem_cons_self h tl)
    cases hv : FS.lookup s h.temp_file with
    | none => rw [hv] at hsomeh; exact Bool.noConfusion hsomeh
    | some v =>
      have hcs := copy_file_success cfg h.temp_file h.file_path v hbw
        (hneq h (List.mem_cons_self h tl)) s hv
      have hrmh := hrm h (List.mem_cons_self h tl)
      simp only [List.cons_append, do_copy, doCopyWith, copyOneFS, rmOneFS, hcs.2, hrmh,
        if_false, hcs.1]
      refine ih (FS.write s h.file_path v) (fun x hx => hrm x (List.mem_cons_of_mem h hx))
        (fun x hx => hneq x (List.mem_cons_of_mem h hx)) ?_
        (fun x hx => hnotE x (List.mem_cons_of_mem h hx))
        (fun x hx y hy => hsepPre x (List.mem_cons_of_mem h hx) y (List.mem_cons_of_mem h hy))
        ?_
      · intro x hx
        rw [FS.lookup_write,
          if_neg (Ne.symm (hsepPre h (List.mem_cons_self h tl) x (List.mem_cons_of_mem h hx)))]
        exact hpresent x (List.mem_cons_of_mem h hx)
      · rw [FS.lookup_write, if_neg (Ne.symm (hnotE h (List.mem_cons_self h tl)))]
        exact hmiss

/-! ### Claim C10: a TempCache is not safely reusable after a flush -/

/-- Claim C10.  A fully successful flush does not clear the entry
collection, so flushing a second time fails: pre lists the entries
registered before the first do_rm entry e (they are the non-do_rm ones),
the entries' destinations never alias a temp path and the temp paths are
distinct (as synthesized by register), and no bandwidth limit is set.
After the first flush took fs0 to fs1 and succeeded, flushing again from
fs1 raises the temp-file existence precondition error for e, whose temp
file the first flush removed. -/
theorem C10_second_flush_raises (cfg : Cfg) (pre post : List CacheEntry) (e : CacheEntry)
    (fs0 fs1 : FS)
    (hbw : cfg.bandwidth = none)
    (hpre : ∀ x ∈ pre, x.do_rm = false)
    (he : e.do_rm = true)
    (hsep : ∀ a ∈ pre ++ e :: post, ∀ b ∈ pre ++ e :: post, a.file_path ≠ b.temp_file)
    (hnd : (((pre ++ e :: post)).map (fun x => x.temp_file)).Nodup)
    (h1 : do_copy cfg (pre ++ e :: post) fs0 = (fs1, .ok ())) :
    (do_copy cfg (pre ++ e :: post) fs1).2
      = .error (.ioError ("Cannot copy temp file: File does not exist: " ++ e.temp_file)) := by
  have hstatus := do_copy_ok_temp_status cfg (pre ++ e :: post) fs0 fs1 h1 hsep hnd
  have hmemE : e ∈ pre ++ e :: post :=
    List.mem_append_right pre (List.mem_cons_self e post)
  refine do_copy_second_flush cfg e post hbw pre fs1
    hpre
    (fun x hx => Ne.symm (hsep x (List.mem_append_left _ hx) x (List.mem_append_left _ hx)))
    (fun x hx => (hstatus x (List.mem_append_left _ hx)).2 (hpre x hx))
    (fun x hx => hsep x (List.mem_append_left _ hx) e hmemE)
    (fun x hx y hy =>
      hsep x (List.mem_append_left _ hx) y (List.mem_append_left _ hy))
    ((hstatus e hmemE).1 he)

/-- The cache configuration of the C10 witness. -/
def cfgC10 : Cfg := ⟨"t", 2, 4, false, none, true⟩

/-- The single entry of the C10 witness, registered with do_rm. -/
def entC10 : CacheEntry := ⟨"/d/a", "t/a.tmp", "a", true⟩

/-- Claim C10, witness: one do_rm entry, flushed twice.  The first flush
succeeds and removes the temp file; the second raises the temp-file
existence precondition error. -/
theorem C10_witness :
    (do_copy cfgC10 [entC10] [("/d/a", "A")]).2
      = .error (.ioError "Cannot copy temp file: File does not exist: t/a.tmp") :=
  C10_second_flush_raises cfgC10 [] [] entC10 [("t/a.tmp", "A")] [("/d/a", "A")]
    rfl (fun x hx => absurd hx (List.not_mem_nil x)) rfl (by decide) (by decide) (by decide)

end EEEPy
